import Mathlib

/-!
Shallow embedding of the Mehu assistant UI's session controller and
transcript model, translated from the React component in the source
(addMessage, the live-session onmessage handler, stopLiveSession, the
onclose/onerror callbacks and handleSendText), together with theorems
about the transcript coalescing rule, the playback scheduling cursor,
interruption handling, session teardown and the one-shot text path.
-/

namespace Mehu

/-- Speaker of a transcript entry, from the source's role field
('user' or 'mehu'). -/
inductive Role where
  | user
  | mehu
deriving DecidableEq, Repr

/-- A transcript entry, from the Message interface: id, role, text,
timestamp.  Ids and timestamps are modelled as naturals. -/
structure Message where
  id : Nat
  role : Role
  text : String
  timestamp : Nat
deriving DecidableEq, Repr

/-- JS string containment s.includes(sub): sub occurs somewhere in s. -/
def strIncludes (s sub : String) : Bool :=
  decide (sub.data <:+: s.data)

/-- JS String trim(): strip whitespace from both ends, written on the
character list so it evaluates by unfolding alone. -/
def jsTrim (s : String) : String :=
  String.mk (((s.data.dropWhile Char.isWhitespace).reverse.dropWhile
    Char.isWhitespace).reverse)

/-- The coalescing transcript append, from addMessage: if the most recent
entry has the same role and the new text contains the old entry's text as
a substring, replace that entry's text and timestamp in place; otherwise
append a new entry with a fresh id and the current timestamp. -/
def addMessage (prev : List Message) (role : Role) (text : String)
    (now freshId : Nat) : List Message :=
  match prev.getLast? with
  | some lastMsg =>
      if lastMsg.role = role ∧ strIncludes text lastMsg.text = true then
        prev.dropLast ++ [{ lastMsg with text := text, timestamp := now }]
      else
        prev ++ [{ id := freshId, role := role, text := text, timestamp := now }]
  | none => prev ++ [{ id := freshId, role := role, text := text, timestamp := now }]

/-- A sequence of transcription events for one speaker, each event carrying
a text, a timestamp and a fresh id, applied in order with addMessage. -/
def addAll (prev : List Message) (role : Role)
    (events : List (String × Nat × Nat)) : List Message :=
  events.foldl (fun ms e => addMessage ms role e.1 e.2.1 e.2.2) prev

/-- Each successive text contains the preceding one as a substring. -/
def chainGrows : String → List String → Bool
  | _, [] => true
  | t, u :: rest => strIncludes u t && chainGrows u rest

/-- The last element of a nonempty list of texts, written with an explicit
head so it evaluates by unfolding alone. -/
def lastOf (a : String) : List String → String
  | [] => a
  | b :: l => lastOf b l

theorem addMessage_shape (prev : List Message) (role : Role) (text : String)
    (now f : Nat) :
    ∃ p m, addMessage prev role text now f = p ++ [m] ∧
      m.role = role ∧ m.text = text ∧ m.timestamp = now ∧
      (p = prev ∨ p = prev.dropLast) := by
  cases h : prev.getLast? with
  | none =>
      simp only [addMessage, h]
      exact ⟨prev, _, rfl, rfl, rfl, rfl, Or.inl rfl⟩
  | some lm =>
      by_cases hc : lm.role = role ∧ strIncludes text lm.text = true
      · simp only [addMessage, h, if_pos hc]
        exact ⟨prev.dropLast, _, rfl, hc.1, rfl, rfl, Or.inr rfl⟩
      · simp only [addMessage, h, if_neg hc]
        exact ⟨prev, _, rfl, rfl, rfl, rfl, Or.inl rfl⟩

theorem addMessage_coalesce (p : List Message) (m : Message) (role : Role)
    (text : String) (now f : Nat)
    (hr : m.role = role) (ht : strIncludes text m.text = true) :
    addMessage (p ++ [m]) role text now f =
      p ++ [{ m with text := text, timestamp := now }] := by
  have hlast : (p ++ [m]).getLast? = some m := by simp
  have hdrop : (p ++ [m]).dropLast = p := by simp
  simp only [addMessage, hlast, if_pos (And.intro hr ht), hdrop]

theorem addMessage_append (p : List Message) (m : Message) (role : Role)
    (text : String) (now f : Nat)
    (hne : ¬(m.role = role ∧ strIncludes text m.text = true)) :
    addMessage (p ++ [m]) role text now f =
      (p ++ [m]) ++ [{ id := f, role := role, text := text, timestamp := now }] := by
  have hlast : (p ++ [m]).getLast? = some m := by simp
  simp only [addMessage, hlast, if_neg hne]

theorem addAll_coalesce (role : Role) (events : List (String × Nat × Nat)) :
    ∀ (p : List Message) (m : Message), m.role = role →
      chainGrows m.text (events.map Prod.fst) = true →
      ∃ m', addAll (p ++ [m]) role events = p ++ [m'] ∧ m'.role = role ∧
        m'.text = lastOf m.text (events.map Prod.fst) := by
  induction events with
  | nil =>
      intro p m hr _
      exact ⟨m, rfl, hr, rfl⟩
  | cons e rest ih =>
      intro p m hr hchain
      simp only [List.map_cons, chainGrows, Bool.and_eq_true] at hchain
      have step := addMessage_coalesce p m role e.1 e.2.1 e.2.2 hr hchain.1
      have hfold : addAll (p ++ [m]) role (e :: rest) =
          addAll (addMessage (p ++ [m]) role e.1 e.2.1 e.2.2) role rest := rfl
      rw [hfold, step]
      obtain ⟨m', h1, h2, h3⟩ :=
        ih p { m with text := e.1, timestamp := e.2.1 } hr hchain.2
      exact ⟨m', h1, h2, h3⟩

/-- The mehuStatus enum from the source: 'idle', 'listening', 'speaking'. -/
inductive Status where
  | idle
  | listening
  | speaking
deriving DecidableEq, Repr

/-- The playback-side state touched by the onmessage handler:
nextStartTimeRef (scheduling cursor, seconds as rationals), sourcesRef
(active playback nodes, modelled by distinct ids in insertion order) and
the mehuStatus. -/
structure PlaybackState where
  nextStartTime : ℚ
  sources : List Nat
  status : Status
deriving DecidableEq, Repr

/-- Receipt of one inbound audio chunk, from the onmessage handler:
nextStartTime is raised to max(nextStartTime, ctx.currentTime), the decoded
source starts at that time, the cursor advances by the chunk's duration,
the source joins sourcesRef and the status becomes speaking.  Returns the
new state together with the chunk's scheduled start time. -/
def scheduleChunk (st : PlaybackState) (clock dur : ℚ) (srcId : Nat) :
    PlaybackState × ℚ :=
  ({ nextStartTime := max st.nextStartTime clock + dur,
     sources := st.sources ++ [srcId],
     status := Status.speaking },
   max st.nextStartTime clock)

/-- Receipt of an interruption signal, from the onmessage handler: every
active source is stopped and removed, the cursor is reset to zero and the
status becomes idle. -/
def handleInterruption (_st : PlaybackState) : PlaybackState :=
  { nextStartTime := 0, sources := [], status := Status.idle }

/-- The whole component state the modelled handlers touch: isLive,
mehuStatus, messages, inputText, sessionRef (present or null),
audioContextRef and outputAudioContextRef (open or not), nextStartTimeRef
and sourcesRef. -/
structure AppState where
  isLive : Bool
  status : Status
  messages : List Message
  inputText : String
  session : Bool
  inputCtxOpen : Bool
  outputCtxOpen : Bool
  nextStartTime : ℚ
  sources : List Nat
deriving DecidableEq, Repr

/-- stopLiveSession from the source: closes and nulls sessionRef, closes
and nulls audioContextRef, sets isLive to false and mehuStatus to idle.
It does not touch outputAudioContextRef, nextStartTimeRef or sourcesRef. -/
def stopLiveSession (st : AppState) : AppState :=
  { st with session := false, inputCtxOpen := false,
            isLive := false, status := Status.idle }

/-- The onclose callback of the live session: setIsLive(false) only. -/
def onSessionClose (st : AppState) : AppState :=
  { st with isLive := false }

/-- The onerror callback of the live session: setIsLive(false) only. -/
def onSessionError (st : AppState) : AppState :=
  { st with isLive := false }

/-- The fallback transcript text appended when the one-shot completion
request throws, from handleSendText's catch branch. -/
def fallbackText : String :=
  "I had a little brain freeze. Can you say that again, bestie?"

/-- JS response.text applied as response.text, with the ellipsis default
standing in for an absent or empty (falsy) reply string. -/
def replyText (t : Option String) : String :=
  match t with
  | some s => if s = "" then "..." else s
  | none => "..."

/-- Result of one handleSendText invocation: the new component state, the
number of one-shot generateContent requests issued and the number of
messages sent over the live session. -/
structure SendResult where
  state : AppState
  oneShotRequests : Nat
  liveSends : Nat
deriving DecidableEq, Repr

/-- handleSendText from the source.  A blank (whitespace-only) input is a
no-op.  Otherwise the input box is cleared, the user's text is appended to
the transcript, and then: with a live session active the text is sent over
the session; otherwise exactly one one-shot completion request is made,
whose outcome apiResult is either a reply (possibly absent or empty text)
or an error, and the corresponding assistant entry is appended.  Errors of
the request are caught, never propagated. -/
def handleSendText (st : AppState) (apiResult : Except Unit (Option String))
    (now1 f1 now2 f2 : Nat) : SendResult :=
  if jsTrim st.inputText = "" then
    { state := st, oneShotRequests := 0, liveSends := 0 }
  else
    let userMsg := st.inputText
    let msgs1 := addMessage st.messages Role.user userMsg now1 f1
    if st.isLive && st.session then
      { state := { st with inputText := "", messages := msgs1 },
        oneShotRequests := 0, liveSends := 1 }
    else
      match apiResult with
      | Except.ok t =>
          let msgs2 := addMessage msgs1 Role.mehu (replyText t) now2 f2
          { state := { st with inputText := "", messages := msgs2 },
            oneShotRequests := 1, liveSends := 0 }
      | Except.error _ =>
          let msgs2 := addMessage msgs1 Role.mehu fallbackText now2 f2
          { state := { st with inputText := "", messages := msgs2 },
            oneShotRequests := 1, liveSends := 0 }

/-- Claim C1: for every sequence of partial-transcription appends for one
fixed speaker, where each successive text contains the preceding text as a
substring, applying them in order to any transcript leaves exactly one
entry for that turn (the rest of the transcript is the original, into
whose last entry the turn may at most have been coalesced), and that
entry's final text equals the last text received. -/
theorem claim_C1_single_growing_turn (prev : List Message) (role : Role)
    (t1 : String) (n1 f1 : Nat) (rest : List (String × Nat × Nat))
    (hchain : chainGrows t1 (rest.map Prod.fst) = true) :
    ∃ p m, (p = prev ∨ p = prev.dropLast) ∧
      addAll prev role ((t1, n1, f1) :: rest) = p ++ [m] ∧
      m.role = role ∧ m.text = lastOf t1 (rest.map Prod.fst) := by
  obtain ⟨p, m, heq, hr, htext, -, hp⟩ := addMessage_shape prev role t1 n1 f1
  have hstep : addAll prev role ((t1, n1, f1) :: rest) =
      addAll (addMessage prev role t1 n1 f1) role rest := rfl
  obtain ⟨m', h1, h2, h3⟩ :=
    addAll_coalesce role rest p m hr (by rw [htext]; exact hchain)
  refine ⟨p, m', hp, ?_, h2, ?_⟩
  · rw [hstep, heq, h1]
  · rw [h3, htext]

/-- Witness for claim C1 at the spec's own scenario: partials "What is"
then "What is gravity?" on an empty transcript. -/
theorem claim_C1_single_growing_turn_witness :
    chainGrows "What is"
        (([("What is gravity?", 1, 1)] : List (String × Nat × Nat)).map Prod.fst) = true ∧
    (∃ p m, (p = ([] : List Message) ∨ p = ([] : List Message).dropLast) ∧
      addAll [] Role.user [("What is", 0, 0), ("What is gravity?", 1, 1)] = p ++ [m] ∧
      m.role = Role.user ∧
      m.text = lastOf "What is"
        (([("What is gravity?", 1, 1)] : List (String × Nat × Nat)).map Prod.fst)) :=
  ⟨by decide,
   claim_C1_single_growing_turn [] Role.user "What is" 0 0
     [("What is gravity?", 1, 1)] (by decide)⟩

/-- Claim C9: one addMessage leaves every entry except possibly the last
unchanged and in order; the length grows by exactly one when a new entry
is created and stays the same when the last entry is coalesced. -/
theorem claim_C9_addMessage_frame (prev : List Message) (role : Role)
    (text : String) (now f : Nat) :
    (addMessage prev role text now f =
        prev ++ [{ id := f, role := role, text := text, timestamp := now }] ∧
      (addMessage prev role text now f).length = prev.length + 1) ∨
    (∃ lm, prev.getLast? = some lm ∧
      addMessage prev role text now f =
        prev.dropLast ++ [{ lm with text := text, timestamp := now }] ∧
      (addMessage prev role text now f).length = prev.length) := by
  cases h : prev.getLast? with
  | none =>
      left
      refine ⟨by simp only [addMessage, h], ?_⟩
      simp [addMessage, h]
  | some lm =>
      by_cases hc : lm.role = role ∧ strIncludes text lm.text = true
      · right
        have hne : prev ≠ [] := by
          intro he
          rw [he] at h
          exact Option.noConfusion h
        refine ⟨lm, rfl, by simp only [addMessage, h, if_pos hc], ?_⟩
        have hpos : 0 < prev.length := List.length_pos.mpr hne
        simp only [addMessage, h, if_pos hc, List.length_append,
          List.length_dropLast, List.length_cons, List.length_nil]
        omega
      · left
        refine ⟨by simp only [addMessage, h, if_neg hc], ?_⟩
        simp [addMessage, h, if_neg hc]

/-- Claim C2: three chunks of durations d1, d2, d3 arriving with no
interruption, with the playback clock never ahead of the scheduling
cursor, are scheduled back to back — each start time is the previous start
plus the previous duration — and from a fresh cursor the cursor ends at
d1 + d2 + d3. -/
theorem claim_C2_back_to_back (s0 : PlaybackState) (c1 c2 c3 d1 d2 d3 : ℚ)
    (i1 i2 i3 : Nat)
    (h0 : s0.nextStartTime = 0)
    (h1 : c1 ≤ s0.nextStartTime)
    (h2 : c2 ≤ ((scheduleChunk s0 c1 d1 i1).1).nextStartTime)
    (h3 : c3 ≤ ((scheduleChunk (scheduleChunk s0 c1 d1 i1).1 c2 d2 i2).1).nextStartTime) :
    (scheduleChunk (scheduleChunk s0 c1 d1 i1).1 c2 d2 i2).2
        = (scheduleChunk s0 c1 d1 i1).2 + d1 ∧
    (scheduleChunk (scheduleChunk (scheduleChunk s0 c1 d1 i1).1 c2 d2 i2).1 c3 d3 i3).2
        = (scheduleChunk (scheduleChunk s0 c1 d1 i1).1 c2 d2 i2).2 + d2 ∧
    (scheduleChunk (scheduleChunk (scheduleChunk s0 c1 d1 i1).1 c2 d2 i2).1 c3 d3 i3).1.nextStartTime
        = d1 + d2 + d3 := by
  simp only [scheduleChunk] at h2 h3 ⊢
  refine ⟨max_eq_left h2, max_eq_left h3, ?_⟩
  rw [max_eq_left h3, max_eq_left h2, max_eq_left h1, h0]
  ring

/-- Witness for claim C2: a fresh playback state, clocks at zero and
durations 1, 2, 3. -/
theorem claim_C2_back_to_back_witness :
    ((⟨0, [], Status.idle⟩ : PlaybackState).nextStartTime = 0 ∧
     (0 : ℚ) ≤ (⟨0, [], Status.idle⟩ : PlaybackState).nextStartTime ∧
     (0 : ℚ) ≤ ((scheduleChunk ⟨0, [], Status.idle⟩ 0 1 10).1).nextStartTime ∧
     (0 : ℚ) ≤ ((scheduleChunk (scheduleChunk ⟨0, [], Status.idle⟩ 0 1 10).1 0 2 11).1).nextStartTime) ∧
    ((scheduleChunk (scheduleChunk ⟨0, [], Status.idle⟩ 0 1 10).1 0 2 11).2
        = (scheduleChunk ⟨0, [], Status.idle⟩ 0 1 10).2 + 1 ∧
     (scheduleChunk (scheduleChunk (scheduleChunk ⟨0, [], Status.idle⟩ 0 1 10).1 0 2 11).1 0 3 12).2
        = (scheduleChunk (scheduleChunk ⟨0, [], Status.idle⟩ 0 1 10).1 0 2 11).2 + 2 ∧
     (scheduleChunk (scheduleChunk (scheduleChunk ⟨0, [], Status.idle⟩ 0 1 10).1 0 2 11).1 0 3 12).1.nextStartTime
        = 1 + 2 + 3) :=
  ⟨⟨rfl, by norm_num, by norm_num [scheduleChunk], by norm_num [scheduleChunk]⟩,
   claim_C2_back_to_back ⟨0, [], Status.idle⟩ 0 0 0 1 2 3 10 11 12 rfl
     (by norm_num) (by norm_num [scheduleChunk]) (by norm_num [scheduleChunk])⟩

/-- Claim C3: handling an interruption resets the scheduling cursor to
zero, empties the active playback set and sets the status to idle; a chunk
received afterwards, with a nonnegative playback clock, is scheduled to
start at the current playback clock. -/
theorem claim_C3_interruption_resets (st : PlaybackState) (clock dur : ℚ)
    (i : Nat) (hc : 0 ≤ clock) :
    (handleInterruption st).nextStartTime = 0 ∧
    (handleInterruption st).sources = [] ∧
    (handleInterruption st).status = Status.idle ∧
    (scheduleChunk (handleInterruption st) clock dur i).2 = clock := by
  refine ⟨rfl, rfl, rfl, ?_⟩
  simp only [scheduleChunk, handleInterruption]
  exact max_eq_right hc

/-- Witness for claim C3: interrupting a speaking state with a busy queue,
then a chunk at clock 7. -/
theorem claim_C3_interruption_resets_witness :
    (0 : ℚ) ≤ 7 ∧
    ((handleInterruption ⟨5, [1, 2], Status.speaking⟩).nextStartTime = 0 ∧
     (handleInterruption ⟨5, [1, 2], Status.speaking⟩).sources = [] ∧
     (handleInterruption ⟨5, [1, 2], Status.speaking⟩).status = Status.idle ∧
     (scheduleChunk (handleInterruption ⟨5, [1, 2], Status.speaking⟩) 7 1 3).2 = 7) :=
  ⟨by norm_num,
   claim_C3_interruption_resets ⟨5, [1, 2], Status.speaking⟩ 7 1 3 (by norm_num)⟩

/-- Claim C5: stopLiveSession is idempotent and from any state leaves the
status at idle, isLive false and no session handle. -/
theorem claim_C5_stop_idempotent (st : AppState) :
    stopLiveSession (stopLiveSession st) = stopLiveSession st ∧
    (stopLiveSession st).status = Status.idle ∧
    (stopLiveSession st).isLive = false ∧
    (stopLiveSession st).session = false :=
  ⟨rfl, rfl, rfl, rfl⟩

/-- Claim C6 is false of the code: stopLiveSession never touches sourcesRef
(nor the output audio context), so a nonempty active-chunk set survives a
stop.  Evaluated at a state with one scheduled node, id 7, and an open
output context. -/
theorem claim_C6_stop_keeps_sources :
    (stopLiveSession ⟨true, Status.speaking, [], "", true, true, true, 2, [7]⟩).sources = [7] ∧
    ([7] : List Nat) ≠ [] ∧
    (stopLiveSession ⟨true, Status.speaking, [], "", true, true, true, 2, [7]⟩).outputCtxOpen = true :=
  ⟨rfl, by decide, rfl⟩

/-- Counterexample to claim C7 as stated: a remote close arriving while
the status is listening leaves the status at listening, not idle. -/
theorem claim_C7_close_not_idle :
    ¬ (onSessionClose ⟨true, Status.listening, [], "", true, true, true, 0, []⟩).status
        = Status.idle := by
  decide

/-- Claim C7 amended: on a session close or session error event the
session is marked no longer active (isLive becomes false) in every state,
but the status enum is left unchanged, so it is not forced to idle. -/
theorem claim_C7_close_marks_inactive (st : AppState) :
    (onSessionClose st).isLive = false ∧ (onSessionClose st).status = st.status ∧
    (onSessionError st).isLive = false ∧ (onSessionError st).status = st.status :=
  ⟨rfl, rfl, rfl, rfl⟩

theorem addMessage_after_user (st : AppState) (n1 f1 n2 f2 : Nat) (x : String) :
    addMessage (addMessage st.messages Role.user st.inputText n1 f1)
        Role.mehu x n2 f2 =
      addMessage st.messages Role.user st.inputText n1 f1 ++
        [{ id := f2, role := Role.mehu, text := x, timestamp := n2 }] := by
  obtain ⟨p, m, heq, hr, -, -, -⟩ :=
    addMessage_shape st.messages Role.user st.inputText n1 f1
  rw [heq]
  refine addMessage_append p m Role.mehu x n2 f2 ?_
  intro hx
  rw [hr] at hx
  exact absurd hx.1 (by decide)

/-- Claim C4: for non-blank input with no live session active,
handleSendText issues exactly one one-shot completion request, sends
nothing over a live session, and appends exactly one assistant entry after
the user's entry — the reply on success, the fallback on failure, never
both and never zero; the error case is caught, so the function returns
normally either way. -/
theorem claim_C4_offline_send (st : AppState)
    (apiResult : Except Unit (Option String)) (n1 f1 n2 f2 : Nat)
    (hne : ¬ jsTrim st.inputText = "") (hlive : st.isLive = false) :
    (handleSendText st apiResult n1 f1 n2 f2).oneShotRequests = 1 ∧
    (handleSendText st apiResult n1 f1 n2 f2).liveSends = 0 ∧
    (handleSendText st apiResult n1 f1 n2 f2).state.messages =
      addMessage st.messages Role.user st.inputText n1 f1 ++
        [{ id := f2, role := Role.mehu,
           text := match apiResult with
             | Except.ok t => replyText t
             | Except.error _ => fallbackText,
           timestamp := n2 }] := by
  cases apiResult with
  | ok t =>
      refine ⟨?_, ?_, ?_⟩ <;>
        simp [handleSendText, hne, hlive, addMessage_after_user st n1 f1 n2 f2]
  | error e =>
      refine ⟨?_, ?_, ?_⟩ <;>
        simp [handleSendText, hne, hlive, addMessage_after_user st n1 f1 n2 f2]

/-- Witness for claim C4: input "hi", no live session, a successful reply
"hello". -/
theorem claim_C4_offline_send_witness :
    (¬ (jsTrim "hi" = "")) ∧
    ((handleSendText ⟨false, Status.idle, [], "hi", false, false, false, 0, []⟩
        (Except.ok (some "hello")) 0 1 2 3).oneShotRequests = 1 ∧
     (handleSendText ⟨false, Status.idle, [], "hi", false, false, false, 0, []⟩
        (Except.ok (some "hello")) 0 1 2 3).liveSends = 0 ∧
     (handleSendText ⟨false, Status.idle, [], "hi", false, false, false, 0, []⟩
        (Except.ok (some "hello")) 0 1 2 3).state.messages =
       addMessage [] Role.user "hi" 0 1 ++
         [{ id := 3, role := Role.mehu, text := replyText (some "hello"),
            timestamp := 2 }]) :=
  ⟨by decide,
   claim_C4_offline_send ⟨false, Status.idle, [], "hi", false, false, false, 0, []⟩
     (Except.ok (some "hello")) 0 1 2 3 (by decide) rfl⟩

/-- Claim C8: submitting a blank (empty or whitespace-only) input is a
no-op: no request is made, nothing is sent over a live session, and the
whole state — the transcript included — is unchanged. -/
theorem claim_C8_blank_noop (st : AppState)
    (apiResult : Except Unit (Option String)) (n1 f1 n2 f2 : Nat)
    (h : jsTrim st.inputText = "") :
    handleSendText st apiResult n1 f1 n2 f2 =
      { state := st, oneShotRequests := 0, liveSends := 0 } := by
  simp only [handleSendText, if_pos h]

/-- Witness for claim C8: a single-space input. -/
theorem claim_C8_blank_noop_witness :
    (jsTrim " " = "") ∧
    handleSendText ⟨false, Status.idle, [], " ", false, false, false, 0, []⟩
        (Except.ok none) 0 0 0 0 =
      { state := ⟨false, Status.idle, [], " ", false, false, false, 0, []⟩,
        oneShotRequests := 0, liveSends := 0 } :=
  ⟨by decide,
   claim_C8_blank_noop ⟨false, Status.idle, [], " ", false, false, false, 0, []⟩
     (Except.ok none) 0 0 0 0 (by decide)⟩

/-- Claim C10: a successful one-shot request whose reply text is absent or
empty appends an assistant entry with text "..."; replyText is never the
empty string, so a successful send never appends an empty assistant
entry. -/
theorem claim_C10_empty_reply_ellipsis (st : AppState) (t : Option String)
    (n1 f1 n2 f2 : Nat)
    (hne : ¬ jsTrim st.inputText = "") (hlive : st.isLive = false)
    (ht : t = none ∨ t = some "") :
    (handleSendText st (Except.ok t) n1 f1 n2 f2).state.messages =
      addMessage st.messages Role.user st.inputText n1 f1 ++
        [{ id := f2, role := Role.mehu, text := "...", timestamp := n2 }] ∧
    (∀ t' : Option String, replyText t' ≠ "") := by
  have hrt : replyText t = "..." := by
    rcases ht with h | h <;> simp [h, replyText]
  constructor
  · simp [handleSendText, hne, hlive, hrt,
      addMessage_after_user st n1 f1 n2 f2]
  · intro t'
    match t' with
    | none => simp [replyText]
    | some s =>
        by_cases hs : s = ""
        · simp [replyText, hs]
        · simp [replyText, hs]

/-- Witness for claim C10: input "hi", no live session, a success carrying
no reply text. -/
theorem claim_C10_empty_reply_ellipsis_witness :
    (¬ (jsTrim "hi" = "")) ∧
    ((handleSendText ⟨false, Status.idle, [], "hi", false, false, false, 0, []⟩
        (Except.ok none) 0 1 2 3).state.messages =
       addMessage [] Role.user "hi" 0 1 ++
         [{ id := 3, role := Role.mehu, text := "...", timestamp := 2 }] ∧
     (∀ t' : Option String, replyText t' ≠ "")) :=
  ⟨by decide,
   claim_C10_empty_reply_ellipsis
     ⟨false, Status.idle, [], "hi", false, false, false, 0, []⟩
     none 0 1 2 3 (by decide) rfl (Or.inl rfl)⟩

end Mehu
